import Mathlib

/-!
Verification development for the moltbook web client's session/skill core
(`src/lib/session.ts`, `src/lib/skill-verification.ts`, `src/store/index.ts`).
The JavaScript code is shallowly embedded: JS objects that may carry
arbitrary keys are association lists of `JVal`, the session manager is a
pure state-passing transcription of the `SessionManager` class, and the
asynchronous verifier loop is a fuel-bounded recursion over an explicit
environment (fetch outcomes and an abort-signal fire time).
-/

/-- A JavaScript runtime value, as far as the session store inspects one. -/
inductive JVal where
  | undefV : JVal
  | jnull : JVal
  | jbool : Bool → JVal
  | num : Int → JVal
  | str : String → JVal
  | obj : List (String × JVal) → JVal
deriving Repr

/-- Association-list lookup used for JS object field access. -/
def lookupKV {α : Type} : List (String × α) → String → Option α
  | [], _ => none
  | (k, v) :: rest, key => if k = key then some v else lookupKV rest key

/-- Replace the binding for `key` in place when present, append otherwise
(mirrors `Map.set` / object spread-with-override ordering). -/
def setKV {α : Type} : List (String × α) → String → α → List (String × α)
  | [], key, v => [(key, v)]
  | (k, w) :: rest, key, v =>
      if k = key then (k, v) :: rest else (k, w) :: setKV rest key v

/-- JS `typeof`. -/
def JVal.typeOf : JVal → String
  | .undefV => "undefined"
  | .jnull => "object"
  | .jbool _ => "boolean"
  | .num _ => "number"
  | .str _ => "string"
  | .obj _ => "object"

/-- JS truthiness. -/
def JVal.truthy : JVal → Bool
  | .undefV => false
  | .jnull => false
  | .jbool b => b
  | .num n => n != 0
  | .str s => s ≠ ""
  | .obj _ => true

/-- JS `a || b`. -/
def jsOr (a b : JVal) : JVal := if a.truthy then a else b

/-- Total property access on a value already known not to be
`null`/`undefined` (primitive bases yield `undefined`). -/
def JVal.get : JVal → String → JVal
  | .obj fields, key => (lookupKV fields key).getD .undefV
  | _, _ => .undefV

/-- Property access that models the JS `TypeError` thrown when the base is
`null` or `undefined`. -/
def JVal.getProp : JVal → String → Except Unit JVal
  | .undefV, _ => .error ()
  | .jnull, _ => .error ()
  | v, key => .ok (v.get key)

/-- `Object.keys`. -/
def JVal.keys : JVal → List String
  | .obj fields => fields.map Prod.fst
  | _ => []

/-- JS numeric coercion, `none` standing for `NaN` (string-to-number
parsing is not modelled; the store never compares numeric strings). -/
def JVal.toNumber : JVal → Option Int
  | .num n => some n
  | .jbool b => some (if b then 1 else 0)
  | .jnull => some 0
  | _ => none

/-- JS `a - b` on a number and a value (`NaN` propagates as `none`). -/
def jsSub (a : Int) (b : JVal) : Option Int :=
  match b.toNumber with
  | some n => some (a - n)
  | none => none

/-- JS `a > b` where either side may be `NaN` (`NaN` comparisons are false). -/
def jsGt (a : Option Int) (b : JVal) : Bool :=
  match a, b.toNumber with
  | some x, some y => x > y
  | _, _ => false

/-! ## Error classifier (`src/lib/session.ts`, bottom of file) -/

/-- A JS error value as `isNetworkError` / `isRecoverableError` see it:
either an `Error` instance (name, message, optional `statusCode` property)
or some non-`Error` value. -/
inductive ErrVal where
  | mkError (name message : String) (statusCode : Option Int)
  | nonError
deriving Repr, DecidableEq

/-- ASCII lower-casing, as `String.prototype.toLowerCase` behaves on the
messages the classifier sees. -/
def asciiLowerChar (c : Char) : Char :=
  if 'A' ≤ c ∧ c ≤ 'Z' then Char.ofNat (c.toNat + 32) else c

def asciiLower (s : String) : String :=
  String.mk (s.data.map asciiLowerChar)

/-- `pat` occurs as a contiguous substring of `s` (JS `String.includes`). -/
def charsInclude : List Char → List Char → Bool
  | _, [] => true
  | [], _ :: _ => false
  | c :: rest, pat =>
      List.isPrefixOf pat (c :: rest) || charsInclude rest pat

def strIncludes (s pat : String) : Bool :=
  charsInclude s.data pat.data

/-- `isNetworkError` from `src/lib/session.ts`: an `Error` whose lowered
message contains one of the fixed connectivity markers. -/
def isNetworkError : ErrVal → Bool
  | .mkError _ message _ =>
      let m := asciiLower message
      strIncludes m "eai_again" ||
      strIncludes m "enotfound" ||
      strIncludes m "network" ||
      strIncludes m "dns" ||
      strIncludes m "getaddrinfo" ||
      strIncludes m "fetch failed" ||
      strIncludes m "connection refused"
  | .nonError => false

/-- `isRecoverableError` from `src/lib/session.ts`.  The `statusCode`
branch returns unconditionally, so the `rate limit` check is only reached
by `Error`s carrying no `statusCode` property. -/
def isRecoverableError (e : ErrVal) : Bool :=
  if isNetworkError e then true
  else
    match e with
    | .mkError _ message (some statusCode) =>
        let _ := message
        statusCode ≥ 500 && statusCode < 600
    | .mkError _ message none => strIncludes message "rate limit"
    | .nonError => false

/-- `calculateRetryDelay` from `src/lib/session.ts`:
`min(RETRY_DELAY_BASE * 2^attempt, 30000)` with base 1000. -/
def calculateRetryDelay (attempt : Nat) : Int :=
  min (1000 * 2 ^ attempt) 30000

/-- `MAX_RETRIES` from `src/lib/session.ts`. -/
def MAX_RETRIES : Nat := 3

/-- `DEFAULT_SESSION_TIMEOUT` from `src/lib/session.ts`. -/
def DEFAULT_SESSION_TIMEOUT : Int := 30000

/-! ## Session data model (`src/lib/session.ts`) -/

inductive SessionStatus where
  | idle | initializing | running | error | terminated
deriving Repr, DecidableEq

structure SessionStats where
  totalTokens : Int
  turnCount : Int
  startTime : Int
  lastActivityTime : Int
deriving Repr, DecidableEq

structure SessionError where
  code : String
  message : String
  recoverable : Bool
  timestamp : Int
deriving Repr, DecidableEq

/-- A session config is a JS object: it may carry keys beyond the typed
ones, which is exactly what claims about the allow-list are about. -/
def RawConfig := List (String × JVal)

structure Session where
  id : String
  name : String
  status : SessionStatus
  systemSent : Bool
  interrupted : Bool
  config : RawConfig
  stats : SessionStats
  error : Option SessionError
  createdAt : Int
  updatedAt : Int

/-- The private `sessions : Map<string, Session>` of `SessionManager`,
in insertion order. -/
def Smap := List (String × Session)

/-- The allow-listed config keys from `validateSession`. -/
def allowedConfigKeys : List String := ["model", "system", "tools", "timeout"]

/-- `Partial<Omit<Session, 'id' | 'createdAt'>>` as passed to
`updateSession`. -/
structure SessionUpdates where
  name : Option String := none
  status : Option SessionStatus := none
  systemSent : Option Bool := none
  interrupted : Option Bool := none
  config : Option RawConfig := none
  stats : Option SessionStats := none
  error : Option SessionError := none

/-- `updateSession`: whole-record merge of `updates` over the current
snapshot, bumping `updatedAt` and `stats.lastActivityTime` to `now`.
Returns the updated session (or `undefined`) together with the new map. -/
def updateSession (st : Smap) (id : String) (u : SessionUpdates) (now : Int) :
    Option Session × Smap :=
  match lookupKV st id with
  | none => (none, st)
  | some s =>
      let merged : Session :=
        { id := s.id
          name := u.name.getD s.name
          status := u.status.getD s.status
          systemSent := u.systemSent.getD s.systemSent
          interrupted := u.interrupted.getD s.interrupted
          config := u.config.getD s.config
          stats := { u.stats.getD s.stats with lastActivityTime := now }
          error := match u.error with
            | some e => some e
            | none => s.error
          createdAt := s.createdAt
          updatedAt := now }
      (some merged, setKV st id merged)

/-- `createSession`: fresh idle record, `systemSent = false`, stats
zeroed, `timeout` defaulted via `config.timeout || DEFAULT_SESSION_TIMEOUT`
in the spread.  There is no validation and no failure path. -/
def createSession (st : Smap) (id name : String) (config : RawConfig)
    (now : Int) : Session × Smap :=
  let cfg : RawConfig :=
    setKV config "timeout"
      (jsOr ((lookupKV config "timeout").getD .undefV) (.num DEFAULT_SESSION_TIMEOUT))
  let session : Session :=
    { id := id
      name := name
      status := .idle
      systemSent := false
      interrupted := false
      config := cfg
      stats :=
        { totalTokens := 0, turnCount := 0, startTime := now,
          lastActivityTime := now }
      error := none
      createdAt := now
      updatedAt := now }
  (session, setKV st id session)

/-- `markSystemSent`: refuses unless the session exists with status
`running`; otherwise `systemSent := true` through `updateSession`. -/
def markSystemSent (st : Smap) (id : String) (now : Int) :
    Option Session × Smap :=
  match lookupKV st id with
  | none => (none, st)
  | some s =>
      if s.status ≠ .running then (none, st)
      else updateSession st id { systemSent := some true } now

/-- `startSession`: status `running`, `systemSent` re-asserted `false`. -/
def startSession (st : Smap) (id : String) (now : Int) :
    Option Session × Smap :=
  updateSession st id { status := some .running, systemSent := some false } now

/-- The caller-supplied part of a session error
(`Omit<SessionError, 'timestamp'>`). -/
structure SessionErrorInput where
  code : String
  message : String
  recoverable : Bool

/-- `errorSession`: status `error`, `systemSent := false`, error attached
with a timestamp, in one `updateSession` call. -/
def errorSession (st : Smap) (id : String) (e : SessionErrorInput)
    (now : Int) : Option Session × Smap :=
  updateSession st id
    { status := some .error
      systemSent := some false
      error := some
        { code := e.code, message := e.message,
          recoverable := e.recoverable, timestamp := now } } now

/-- `terminateSession`: status `terminated`, `systemSent := false`,
`interrupted := true`, in one `updateSession` call. -/
def terminateSession (st : Smap) (id : String) (now : Int) :
    Option Session × Smap :=
  updateSession st id
    { status := some .terminated
      systemSent := some false
      interrupted := some true } now

/-- `isZombieSession` on an in-memory (typed) session record. -/
def isZombieSession (s : Session) (now : Int) : Bool :=
  let timeout := jsOr ((lookupKV s.config "timeout").getD .undefV)
    (.num DEFAULT_SESSION_TIMEOUT)
  let timeSinceActivity := now - s.stats.lastActivityTime
  s.systemSent == true &&
  s.status ≠ .terminated &&
  s.status ≠ .error &&
  jsGt (some timeSinceActivity) timeout

/-- `cleanupZombieSessions`: iterate the current keys, terminating each
session that is a zombie at the time it is visited; returns the count. -/
def cleanupZombieSessions (st : Smap) (now : Int) : Nat × Smap :=
  (st.map Prod.fst).foldl
    (fun acc id =>
      match lookupKV acc.2 id with
      | some s =>
          if isZombieSession s now then
            (acc.1 + 1, (terminateSession acc.2 id now).2)
          else acc
      | none => acc)
    (0, st)

/-! ## Map lemmas -/

theorem lookupKV_setKV {α : Type} (l : List (String × α)) (k key : String)
    (v : α) :
    lookupKV (setKV l k v) key = if k = key then some v else lookupKV l key := by
  induction l with
  | nil => simp [setKV, lookupKV]
  | cons hd tl ih =>
      obtain ⟨a, w⟩ := hd
      by_cases hak : a = k
      · subst hak
        simp only [setKV, if_pos rfl, lookupKV]
        by_cases hkey : a = key
        · simp [hkey]
        · simp [hkey]
      · simp only [setKV, if_neg hak, lookupKV]
        by_cases hkey : a = key
        · subst hkey
          have : ¬ k = a := fun h => hak h.symm
          simp [this]
        · simp [hkey, ih]

/-! ## The single-flag invariant (claim about reachable states) -/

/-- Invariant I1: every stored session with `systemSent = true` has status
`running`. -/
def SessionInv (st : Smap) : Prop :=
  ∀ id s, lookupKV st id = some s → s.systemSent = true → s.status = .running

/-- States reachable from the empty map through the lifecycle operations
of `SessionManager`. -/
inductive ReachableSmap : Smap → Prop where
  | empty : ReachableSmap []
  | create {st : Smap} (id name : String) (cfg : RawConfig) (now : Int) :
      ReachableSmap st → ReachableSmap (createSession st id name cfg now).2
  | start {st : Smap} (id : String) (now : Int) :
      ReachableSmap st → ReachableSmap (startSession st id now).2
  | mark {st : Smap} (id : String) (now : Int) :
      ReachableSmap st → ReachableSmap (markSystemSent st id now).2
  | err {st : Smap} (id : String) (e : SessionErrorInput) (now : Int) :
      ReachableSmap st → ReachableSmap (errorSession st id e now).2
  | term {st : Smap} (id : String) (now : Int) :
      ReachableSmap st → ReachableSmap (terminateSession st id now).2
  | cleanup {st : Smap} (now : Int) :
      ReachableSmap st → ReachableSmap (cleanupZombieSessions st now).2

theorem SessionInv.updateSession_preserved {st : Smap} (id : String)
    (u : SessionUpdates) (now : Int) (hInv : SessionInv st)
    (h : ∀ s, lookupKV st id = some s →
        u.systemSent.getD s.systemSent = true → u.status.getD s.status = .running) :
    SessionInv (updateSession st id u now).2 := by
  unfold updateSession
  cases hl : lookupKV st id with
  | none => exact hInv
  | some s =>
      intro id' s' hlook hsys
      simp only [lookupKV_setKV] at hlook
      by_cases hid : id = id'
      · rw [if_pos hid] at hlook
        cases hlook
        exact h s hl hsys
      · rw [if_neg hid] at hlook
        exact hInv id' s' hlook hsys

theorem SessionInv.terminateSession_preserved {st : Smap} (id : String)
    (now : Int) (hInv : SessionInv st) :
    SessionInv (terminateSession st id now).2 := by
  refine hInv.updateSession_preserved id _ now ?_
  intro s _ hsys
  simp at hsys

theorem SessionInv.cleanup_preserved {st : Smap} (now : Int)
    (hInv : SessionInv st) : SessionInv (cleanupZombieSessions st now).2 := by
  unfold cleanupZombieSessions
  generalize st.map Prod.fst = ids
  suffices h : ∀ (acc : Nat × Smap), SessionInv acc.2 →
      SessionInv (ids.foldl (fun acc id =>
        match lookupKV acc.2 id with
        | some s =>
            if isZombieSession s now then
              (acc.1 + 1, (terminateSession acc.2 id now).2)
            else acc
        | none => acc) acc).2 by
    exact h (0, st) hInv
  induction ids with
  | nil => intro acc hacc; exact hacc
  | cons hd tl ih =>
      intro acc hacc
      simp only [List.foldl_cons]
      apply ih
      cases hl : lookupKV acc.2 hd with
      | none => simpa [hl] using hacc
      | some s =>
          by_cases hz : isZombieSession s now
          · simpa [hl, hz] using hacc.terminateSession_preserved hd now
          · simpa [hl, hz] using hacc

theorem SessionInv.createSession_preserved {st : Smap} (id name : String)
    (cfg : RawConfig) (now : Int) (hInv : SessionInv st) :
    SessionInv (createSession st id name cfg now).2 := by
  intro id' s' hlook hsys
  simp only [createSession, lookupKV_setKV] at hlook
  by_cases hid : id = id'
  · rw [if_pos hid] at hlook
    cases hlook
    simp at hsys
  · rw [if_neg hid] at hlook
    exact hInv id' s' hlook hsys

theorem SessionInv.markSystemSent_preserved {st : Smap} (id : String)
    (now : Int) (hInv : SessionInv st) :
    SessionInv (markSystemSent st id now).2 := by
  unfold markSystemSent
  cases hl : lookupKV st id with
  | none => exact hInv
  | some s =>
      by_cases hrun : s.status ≠ SessionStatus.running
      · simp only [if_pos hrun]
        exact hInv
      · simp only [if_neg hrun]
        refine hInv.updateSession_preserved id _ now ?_
        intro s' hl' _
        rw [hl] at hl'
        cases hl'
        simpa using hrun

/-- C1: every state reachable through the lifecycle operations satisfies
`systemSent = true → status = running`, and both transitions into `error`
and into `terminated` force `systemSent = false` (and the respective
status) in the same atomic `updateSession` call. -/
theorem systemSent_implies_running :
    (∀ st, ReachableSmap st → SessionInv st) ∧
    (∀ st id e now s', (errorSession st id e now).1 = some s' →
        s'.systemSent = false ∧ s'.status = .error) ∧
    (∀ st id now s', (terminateSession st id now).1 = some s' →
        s'.systemSent = false ∧ s'.status = .terminated) := by
  refine ⟨?_, ?_, ?_⟩
  · intro st hreach
    induction hreach with
    | empty => intro id s hl; simp [lookupKV] at hl
    | create id name cfg now _ ih => exact ih.createSession_preserved id name cfg now
    | start id now _ ih =>
        refine ih.updateSession_preserved id _ now ?_
        intro s _ hsys
        simp at hsys
    | mark id now _ ih => exact ih.markSystemSent_preserved id now
    | err id e now _ ih =>
        refine ih.updateSession_preserved id _ now ?_
        intro s _ hsys
        simp at hsys
    | term id now _ ih => exact ih.terminateSession_preserved id now
    | cleanup now _ ih => exact ih.cleanup_preserved now
  · intro st id e now s' h
    unfold errorSession updateSession at h
    cases hl : lookupKV st id with
    | none => rw [hl] at h; simp at h
    | some s =>
        rw [hl] at h
        simp only [Option.some.injEq] at h
        subst h
        exact ⟨rfl, rfl⟩
  · intro st id now s' h
    unfold terminateSession updateSession at h
    cases hl : lookupKV st id with
    | none => rw [hl] at h; simp at h
    | some s =>
        rw [hl] at h
        simp only [Option.some.injEq] at h
        subst h
        exact ⟨rfl, rfl⟩

def st1W : Smap :=
  (startSession (createSession [] "s" "S" [("model", JVal.str "m")] 0).2 "s" 1).2

def st2W : Smap := (markSystemSent st1W "s" 2).2

def sessW : Session :=
  { id := "s", name := "S", status := .running, systemSent := true,
    interrupted := false,
    config := [("model", JVal.str "m"), ("timeout", JVal.num 30000)],
    stats := { totalTokens := 0, turnCount := 0, startTime := 0,
               lastActivityTime := 2 },
    error := none, createdAt := 0, updatedAt := 2 }

theorem systemSent_implies_running_witness :
    Session.status sessW = SessionStatus.running := by
  have hreach : ReachableSmap st2W :=
    ReachableSmap.mark "s" 2 (ReachableSmap.start "s" 1
      (ReachableSmap.create "s" "S" [("model", JVal.str "m")] 0
        ReachableSmap.empty))
  exact systemSent_implies_running.1 st2W hreach "s" sessW rfl rfl

/-- C2: `markSystemSent` succeeds exactly on an existing `running`
session, storing the record with `systemSent = true`; for an unknown id or
any non-`running` status it returns `undefined` and leaves the whole map
(hence the record) unchanged. -/
theorem markSystemSent_spec (st : Smap) (id : String) (now : Int) :
    (lookupKV st id = none → markSystemSent st id now = (none, st)) ∧
    (∀ s, lookupKV st id = some s → s.status ≠ .running →
        markSystemSent st id now = (none, st)) ∧
    (∀ s, lookupKV st id = some s → s.status = .running →
        markSystemSent st id now =
          (some { s with
                    systemSent := true
                    updatedAt := now
                    stats := { s.stats with lastActivityTime := now } },
            setKV st id { s with
                    systemSent := true
                    updatedAt := now
                    stats := { s.stats with lastActivityTime := now } })) := by
  refine ⟨?_, ?_, ?_⟩
  · intro h
    unfold markSystemSent
    rw [h]
  · intro s hs hns
    unfold markSystemSent
    rw [hs]
    simp [hns]
  · intro s hs hrun
    unfold markSystemSent updateSession
    rw [hs]
    simp [hrun]

def runSessW : Session :=
  { id := "r", name := "R", status := .running, systemSent := false,
    interrupted := false, config := [],
    stats := { totalTokens := 5, turnCount := 1, startTime := 0,
               lastActivityTime := 3 },
    error := none, createdAt := 0, updatedAt := 3 }

theorem markSystemSent_spec_witness :
    markSystemSent [("r", runSessW)] "r" 9 =
      (some { runSessW with
                systemSent := true
                updatedAt := 9
                stats := { runSessW.stats with lastActivityTime := 9 } },
        [("r", { runSessW with
                systemSent := true
                updatedAt := 9
                stats := { runSessW.stats with lastActivityTime := 9 } })]) :=
  (markSystemSent_spec [("r", runSessW)] "r" 9).2.2 runSessW rfl rfl

/-! ## C3: `createSession` and the config allow-list -/

def cfgExtra : RawConfig := [("model", JVal.str "m"), ("temperature", JVal.num 1)]

/-- Counterexample to C3: `createSession` has no validation and no failure
path; on a config with the unknown key `temperature` it returns a session
carrying that key and stores it in the map. -/
theorem createSession_stores_unknown_key :
    (createSession [] "s1" "N" cfgExtra 0).1.config =
      [("model", JVal.str "m"), ("temperature", JVal.num 1),
        ("timeout", JVal.num 30000)] ∧
    lookupKV (createSession [] "s1" "N" cfgExtra 0).2 "s1" =
      some (createSession [] "s1" "N" cfgExtra 0).1 ∧
    ¬ "temperature" ∈ allowedConfigKeys :=
  ⟨rfl, rfl, by decide⟩

/-- C3 amended: `createSession` never rejects.  It always stores a fresh
idle record whose config is the given one with only `timeout` overridden
(`config.timeout || DEFAULT_SESSION_TIMEOUT`); every other key, allow-listed
or not, is carried over verbatim. -/
theorem createSession_never_rejects (st : Smap) (id name : String)
    (cfg : RawConfig) (now : Int) :
    lookupKV (createSession st id name cfg now).2 id =
      some (createSession st id name cfg now).1 ∧
    (createSession st id name cfg now).1.status = .idle ∧
    (createSession st id name cfg now).1.systemSent = false ∧
    (∀ k, k ≠ "timeout" →
      lookupKV (createSession st id name cfg now).1.config k = lookupKV cfg k) ∧
    lookupKV (createSession st id name cfg now).1.config "timeout" =
      some (jsOr ((lookupKV cfg "timeout").getD .undefV)
        (.num DEFAULT_SESSION_TIMEOUT)) := by
  refine ⟨?_, rfl, rfl, ?_, ?_⟩
  · simp [createSession, lookupKV_setKV]
  · intro k hk
    have hne : ¬ ("timeout" = k) := fun h => hk h.symm
    simp only [createSession]
    rw [lookupKV_setKV, if_neg hne]
  · simp only [createSession]
    rw [lookupKV_setKV, if_pos rfl]

theorem createSession_never_rejects_witness :
    lookupKV (createSession [] "w3" "W" cfgExtra 7).1.config "temperature" =
      some (JVal.num 1) := by
  have h := (createSession_never_rejects [] "w3" "W" cfgExtra 7).2.2.2.1
    "temperature" (by decide)
  rw [h]
  rfl

/-! ## C4: is termination terminal? -/

def stTermW : Smap :=
  (terminateSession (startSession (createSession [] "t1" "T"
    [("model", JVal.str "m")] 0).2 "t1" 1).2 "t1" 2).2

/-- Counterexample to C4: after a successful `terminateSession`, a
subsequent `startSession` on the same id is not a no-op — it moves the
stored record back to `running`. -/
theorem startSession_mutates_terminated :
    (lookupKV stTermW "t1").map Session.status =
      some SessionStatus.terminated ∧
    (lookupKV (startSession stTermW "t1" 3).2 "t1").map Session.status =
      some SessionStatus.running :=
  ⟨rfl, rfl⟩

/-- C4 amended: on a terminated session only `markSystemSent` is a no-op
(it refuses and leaves the map unchanged); `startSession`, `errorSession`
and `updateSession` still apply their updates to the record — in
particular `startSession` returns it to `running` — until the record is
deleted. -/
theorem terminated_not_fully_terminal (st : Smap) (id : String)
    (s : Session) (hs : lookupKV st id = some s)
    (hterm : s.status = .terminated) (now : Int) :
    markSystemSent st id now = (none, st) ∧
    (startSession st id now).1.map Session.status = some .running ∧
    (lookupKV (startSession st id now).2 id).map Session.status =
      some .running ∧
    (∀ e, (errorSession st id e now).1.map Session.status = some .error) ∧
    (∀ u, (updateSession st id u now).1.map Session.updatedAt = some now) := by
  refine ⟨?_, ?_, ?_, ?_, ?_⟩
  · unfold markSystemSent
    rw [hs]
    simp [hterm]
  · unfold startSession updateSession
    rw [hs]
    simp
  · unfold startSession updateSession
    rw [hs]
    simp [lookupKV_setKV]
  · intro e
    unfold errorSession updateSession
    rw [hs]
    simp
  · intro u
    unfold updateSession
    rw [hs]
    simp

def tsessW : Session :=
  { id := "t1", name := "T", status := .terminated, systemSent := false,
    interrupted := true,
    config := [("model", JVal.str "m"), ("timeout", JVal.num 30000)],
    stats := { totalTokens := 0, turnCount := 0, startTime := 0,
               lastActivityTime := 2 },
    error := none, createdAt := 0, updatedAt := 2 }

theorem terminated_not_fully_terminal_witness :
    markSystemSent stTermW "t1" 5 = (none, stTermW) :=
  (terminated_not_fully_terminal stTermW "t1" tsessW rfl rfl 5).1

/-! ## Load path: `loadFromStorage`, raw `isZombieSession`, `validateSession` -/

/-- JS `v === true`. -/
def jsIsTrue : JVal → Bool
  | .jbool true => true
  | _ => false

/-- JS `v === "lit"`. -/
def jsIsStr (v : JVal) (lit : String) : Bool :=
  match v with
  | .str t => t = lit
  | _ => false

/-- `isZombieSession` applied to a raw stored record.  The two field
chains `session.config.timeout` and `session.stats.lastActivityTime`
throw when the intermediate value is `null`/`undefined`, which the outer
`try` of `loadFromStorage` turns into a full reset. -/
def isZombieSessionRaw (now : Int) (s : JVal) : Except Unit Bool := do
  let cfg ← s.getProp "config"
  let tv ← cfg.getProp "timeout"
  let timeout := jsOr tv (.num DEFAULT_SESSION_TIMEOUT)
  let stats ← s.getProp "stats"
  let lat ← stats.getProp "lastActivityTime"
  let timeSinceActivity := jsSub now lat
  let sys ← s.getProp "systemSent"
  let status ← s.getProp "status"
  pure (jsIsTrue sys &&
    !(jsIsStr status "terminated") &&
    !(jsIsStr status "error") &&
    jsGt timeSinceActivity timeout)

/-- The `for` loop over `Object.keys(config)` in `validateSession`:
every key must be in the allow-list. -/
def configKeysAllowed (cfg : JVal) : Bool :=
  cfg.keys.all (fun k => allowedConfigKeys.contains k)

/-- `validateSession` on a raw stored record: the early-return-false chain
written as the equivalent conjunction of its checks, in source order. -/
def validateSessionRaw (s : JVal) : Bool :=
  s.truthy &&
  s.typeOf == "object" &&
  (s.get "id").typeOf == "string" &&
  (s.get "name").typeOf == "string" &&
  (s.get "systemSent").typeOf == "boolean" &&
  (s.get "interrupted").typeOf == "boolean" &&
  (s.get "config").truthy &&
  (s.get "config").typeOf == "object" &&
  ((s.get "config").get "model").typeOf == "string" &&
  configKeysAllowed (s.get "config") &&
  (s.get "stats").truthy &&
  (s.get "stats").typeOf == "object"

/-- The `for` loop of `loadFromStorage`: zombies are skipped, invalid
records are skipped, valid ones are inserted; a thrown `TypeError`
propagates. -/
def runLoadEntries (now : Int) :
    List (String × JVal) → List (String × JVal) →
    Except Unit (List (String × JVal))
  | [], acc => .ok acc
  | (id, r) :: rest, acc =>
      match isZombieSessionRaw now r with
      | .error e => .error e
      | .ok z =>
          if z then runLoadEntries now rest acc
          else if validateSessionRaw r then
            runLoadEntries now rest (setKV acc id r)
          else runLoadEntries now rest acc

/-- `loadFromStorage`: the blob is either parsed entries or a parse
failure; any throw (corrupt blob or a record whose zombie check throws)
lands in the `catch` which clears the map. -/
def loadFromStorage (now : Int)
    (blob : Except Unit (List (String × JVal))) : List (String × JVal) :=
  match blob with
  | .error _ => []
  | .ok entries =>
      match runLoadEntries now entries [] with
      | .ok m => m
      | .error _ => []

theorem runLoadEntries_not_mem (now : Int) (es : List (String × JVal))
    (acc m : List (String × JVal)) (sid : String)
    (h : runLoadEntries now es acc = .ok m)
    (hid : ¬ sid ∈ es.map Prod.fst) :
    lookupKV m sid = lookupKV acc sid := by
  induction es generalizing acc with
  | nil =>
      simp only [runLoadEntries] at h
      cases h
      rfl
  | cons hd tl ih =>
      obtain ⟨sid', r'⟩ := hd
      simp only [List.map_cons, List.mem_cons] at hid
      push_neg at hid
      obtain ⟨hne, hid'⟩ := hid
      simp only [runLoadEntries] at h
      cases hz : isZombieSessionRaw now r' with
      | error e =>
          simp only [hz] at h
          exact Except.noConfusion h
      | ok z =>
          simp only [hz] at h
          by_cases hzb : z = true
          · rw [if_pos hzb] at h
            exact ih acc h hid'
          · rw [if_neg hzb] at h
            by_cases hv : validateSessionRaw r' = true
            · rw [if_pos hv] at h
              rw [ih (setKV acc sid' r') h hid']
              rw [lookupKV_setKV, if_neg (fun hcontra => hne hcontra.symm)]
            · rw [if_neg hv] at h
              exact ih acc h hid'

theorem runLoadEntries_dropped (now : Int) (es : List (String × JVal))
    (acc m : List (String × JVal)) (sid : String) (r : JVal)
    (h : runLoadEntries now es acc = .ok m)
    (hmem : (sid, r) ∈ es) (hnd : (es.map Prod.fst).Nodup)
    (hdrop : isZombieSessionRaw now r = .ok true ∨ validateSessionRaw r = false) :
    lookupKV m sid = lookupKV acc sid := by
  induction es generalizing acc with
  | nil => simp at hmem
  | cons hd tl ih =>
      obtain ⟨sid', r'⟩ := hd
      simp only [List.map_cons, List.nodup_cons] at hnd
      obtain ⟨hnotin, hndtl⟩ := hnd
      simp only [runLoadEntries] at h
      cases hz : isZombieSessionRaw now r' with
      | error e =>
          simp only [hz] at h
          exact Except.noConfusion h
      | ok z =>
          simp only [hz] at h
          rcases List.mem_cons.mp hmem with hhd | htl
          · have h1 : sid = sid' := congrArg Prod.fst hhd
            have h2 : r = r' := congrArg Prod.snd hhd
            subst h1
            subst h2
            have hnot : ¬ sid ∈ tl.map Prod.fst := hnotin
            rcases hdrop with hzt | hvf
            · have hzb : z = true := Except.ok.inj (hz.symm.trans hzt)
              rw [if_pos hzb] at h
              exact runLoadEntries_not_mem now tl acc m sid h hnot
            · by_cases hzb : z = true
              · rw [if_pos hzb] at h
                exact runLoadEntries_not_mem now tl acc m sid h hnot
              · rw [if_neg hzb] at h
                rw [if_neg (by simp [hvf])] at h
                exact runLoadEntries_not_mem now tl acc m sid h hnot
          · have hidin : sid ∈ tl.map Prod.fst :=
              List.mem_map.mpr ⟨(sid, r), htl, rfl⟩
            have hne : ¬ sid' = sid := fun hcontra => hnotin (hcontra ▸ hidin)
            by_cases hzb : z = true
            · rw [if_pos hzb] at h
              exact ih acc h htl hndtl
            · rw [if_neg hzb] at h
              by_cases hv : validateSessionRaw r' = true
              · rw [if_pos hv] at h
                rw [ih (setKV acc sid' r') h htl hndtl]
                rw [lookupKV_setKV, if_neg hne]
              · rw [if_neg hv] at h
                exact ih acc h htl hndtl

/-- C9: on load, a record that is already a zombie, or that fails schema
validation (in particular one whose config carries a key outside the
allow-list), is absent from the in-memory map afterwards, and a corrupt
blob yields the empty map. -/
theorem loadFromStorage_spec :
    (∀ now entries sid r, (entries.map Prod.fst).Nodup → (sid, r) ∈ entries →
        (isZombieSessionRaw now r = .ok true ∨ validateSessionRaw r = false) →
        lookupKV (loadFromStorage now (.ok entries)) sid = none) ∧
    (∀ r cfgFields k, r.get "config" = JVal.obj cfgFields →
        k ∈ cfgFields.map Prod.fst → allowedConfigKeys.contains k = false →
        validateSessionRaw r = false) ∧
    (∀ now, loadFromStorage now (.error ()) = []) := by
  refine ⟨?_, ?_, ?_⟩
  · intro now entries sid r hnd hmem hdrop
    have hload : loadFromStorage now (.ok entries) =
        (match runLoadEntries now entries [] with
          | .ok m => m
          | .error _ => []) := rfl
    rw [hload]
    cases hrun : runLoadEntries now entries [] with
    | error e => rfl
    | ok m =>
        have hdone :=
          runLoadEntries_dropped now entries [] m sid r hrun hmem hnd hdrop
        exact hdone.trans rfl
  · intro r cfgFields k hcfg hk hna
    have hkeys : configKeysAllowed (JVal.obj cfgFields) = false := by
      refine Bool.eq_false_iff.mpr ?_
      intro htrue
      simp only [configKeysAllowed, JVal.keys, List.all_eq_true] at htrue
      have hmemk : k ∈ allowedConfigKeys := by simpa using htrue k hk
      have hnmem : ¬ k ∈ allowedConfigKeys := by simpa using hna
      exact hnmem hmemk
    simp [validateSessionRaw, hcfg, hkeys]
  · intro now
    rfl

def badRecW : JVal :=
  JVal.obj [("id", .str "bad"), ("name", .str "B"),
    ("systemSent", .jbool false), ("interrupted", .jbool false),
    ("config", .obj [("model", .str "m"), ("temperature", .num 1)]),
    ("stats", .obj [("totalTokens", .num 0), ("turnCount", .num 0),
      ("startTime", .num 0), ("lastActivityTime", .num 0)])]

theorem loadFromStorage_spec_witness :
    lookupKV (loadFromStorage 0 (.ok [("bad", badRecW)])) "bad" = none :=
  loadFromStorage_spec.1 0 [("bad", badRecW)] "bad" badRecW
    (by simp) (by simp) (Or.inr rfl)

/-! ## Skill verifier (`src/lib/skill-verification.ts`) -/

inductive SkillStatus where
  | unverified | verifying | verified | failed | disabled
deriving Repr, DecidableEq

structure SkillError where
  code : String
  message : String
  isNetworkError : Bool
  timestamp : Int
deriving Repr, DecidableEq

structure Skill where
  id : String
  name : String
  displayName : String
  status : SkillStatus
  verificationUrl : Option String
  lastVerified : Option Int
  error : Option SkillError
  retryCount : Nat
deriving Repr, DecidableEq

structure SkillVerificationResult where
  success : Bool
  skill : Skill
  error : Option SkillError
deriving Repr, DecidableEq

/-- The private state of `SkillVerifier`: the skills map and the
`verificationPromises` map (promises identified by creation order). -/
structure VerifierState where
  skills : List (String × Skill)
  inflight : List (String × Nat)
  nextProm : Nat

/-- `registerSkill`. -/
def registerSkill (vs : VerifierState) (id name displayName : String)
    (url : Option String) : Skill × VerifierState :=
  let skill : Skill :=
    { id := id, name := name, displayName := displayName,
      status := .unverified, verificationUrl := url, lastVerified := none,
      error := none, retryCount := 0 }
  (skill, { vs with skills := setKV vs.skills id skill })

/-- `updateSkillStatus`: sets `skill.status` and `skill.error` (the latter
to `undefined` when no error is passed). -/
def updateSkillStatus (vs : VerifierState) (skillId : String)
    (status : SkillStatus) (error : Option SkillError) : VerifierState :=
  match lookupKV vs.skills skillId with
  | none => vs
  | some sk =>
      let upd : Skill := { sk with status := status, error := error }
      { vs with skills := setKV vs.skills skillId upd }

/-- What `verifySkill` does before its first suspension point.  JavaScript
runs this prefix atomically: unknown-skill check, `verificationPromises`
coalescing check, no-URL immediate success, or the synchronous start of
`performVerification` (status set to `verifying`, the promise recorded in
the map, the first network call issued). -/
inductive EntryStep where
  | notFound (r : SkillVerificationResult)
  | joined (p : Nat)
  | immediate (r : SkillVerificationResult)
  | started (p : Nat)
deriving Repr, DecidableEq

def verifySkillEntry (vs : VerifierState) (skillId : String) (now : Int) :
    EntryStep × VerifierState :=
  match lookupKV vs.skills skillId with
  | none =>
      (.notFound
        { success := false
          skill :=
            { id := skillId, name := "unknown",
              displayName := "Unknown Skill", status := .failed,
              verificationUrl := none, lastVerified := none, error := none,
              retryCount := 0 }
          error := some
            { code := "SKILL_NOT_FOUND"
              message := "Skill " ++ skillId ++ " is not registered"
              isNetworkError := false
              timestamp := now } }, vs)
  | some skill =>
      match lookupKV vs.inflight skillId with
      | some p => (.joined p, vs)
      | none =>
          match skill.verificationUrl with
          | none =>
              let vs' := updateSkillStatus vs skillId .verified none
              (.immediate
                { success := true
                  skill := (lookupKV vs'.skills skillId).getD skill
                  error := none }, vs')
          | some _ =>
              let vs' := updateSkillStatus vs skillId .verifying none
              let p := vs.nextProm
              (.started p,
                { vs' with inflight := setKV vs'.inflight skillId p,
                           nextProm := p + 1 })

/-- A promise resolution environment: all consumers of one promise observe
the same settled value. -/
def entryOutcome (resolve : Nat → SkillVerificationResult) :
    EntryStep → SkillVerificationResult
  | .notFound r => r
  | .immediate r => r
  | .joined p => resolve p
  | .started p => resolve p

/-- Number of verification chains (hence network-call chains) a call
spawns. -/
def startedCount : EntryStep → Nat
  | .started _ => 1
  | _ => 0

/-- C5: if a verification for the skill id is in flight, a further
`verifySkill` call joins that same promise and changes nothing; and two
back-to-back calls on an unverified skill with a URL and no prior
in-flight attempt spawn exactly one chain and observe the identical
outcome under any promise resolution. -/
theorem verifySkill_coalesces :
    (∀ vs skillId now p sk, lookupKV vs.skills skillId = some sk →
        lookupKV vs.inflight skillId = some p →
        verifySkillEntry vs skillId now = (.joined p, vs)) ∧
    (∀ vs skillId now now' sk url, lookupKV vs.skills skillId = some sk →
        sk.verificationUrl = some url →
        lookupKV vs.inflight skillId = none →
        (verifySkillEntry vs skillId now).1 = .started vs.nextProm ∧
        (verifySkillEntry (verifySkillEntry vs skillId now).2 skillId now').1 =
          .joined vs.nextProm ∧
        startedCount (verifySkillEntry vs skillId now).1 +
          startedCount
            (verifySkillEntry (verifySkillEntry vs skillId now).2 skillId now').1
          = 1 ∧
        (∀ resolve,
          entryOutcome resolve (verifySkillEntry vs skillId now).1 =
          entryOutcome resolve
            (verifySkillEntry (verifySkillEntry vs skillId now).2 skillId now').1)) := by
  constructor
  · intro vs skillId now p sk hsk hp
    unfold verifySkillEntry
    rw [hsk, hp]
  · intro vs skillId now now' sk url hsk hurl hinfl
    have hstep : verifySkillEntry vs skillId now =
        (.started vs.nextProm,
          { skills := setKV vs.skills skillId
              { sk with status := .verifying, error := none }
            inflight := setKV vs.inflight skillId vs.nextProm
            nextProm := vs.nextProm + 1 }) := by
      simp only [verifySkillEntry, updateSkillStatus, hsk, hinfl, hurl]
    have hstep2 : (verifySkillEntry (verifySkillEntry vs skillId now).2
        skillId now').1 = .joined vs.nextProm := by
      rw [hstep]
      simp [verifySkillEntry, lookupKV_setKV]
    refine ⟨by rw [hstep], hstep2, ?_, ?_⟩
    · rw [hstep2, hstep]
      rfl
    · intro resolve
      rw [hstep2, hstep]
      rfl

def skC5 : Skill :=
  { id := "x"
    name := "x"
    displayName := "X"
    status := .unverified
    verificationUrl := some "https://v.example/x"
    lastVerified := none
    error := none
    retryCount := 0 }

def vsC5 : VerifierState :=
  { skills := [("x", skC5)], inflight := [], nextProm := 0 }

theorem verifySkill_coalesces_witness :
    (verifySkillEntry vsC5 "x" 0).1 = .started 0 ∧
    (verifySkillEntry (verifySkillEntry vsC5 "x" 0).2 "x" 1).1 = .joined 0 := by
  have h := verifySkill_coalesces.2 vsC5 "x" 0 1 skC5
    "https://v.example/x" rfl rfl rfl
  exact ⟨h.1, h.2.1⟩

/-- `getAllSkills`. -/
def getAllSkills (vs : VerifierState) : List Skill :=
  vs.skills.map Prod.snd

/-- The scan `verifyAllSkills` operates over:
`getAllSkills().filter(s => s.status === 'unverified')`. -/
def unverifiedScan (vs : VerifierState) : List Skill :=
  (getAllSkills vs).filter (fun s => s.status == SkillStatus.unverified)

/-- `areAllSkillsVerified`. -/
def areAllSkillsVerified (vs : VerifierState) : Bool :=
  ((getAllSkills vs).filter (fun s => !(s.status == SkillStatus.disabled))).all
    (fun s => s.status == SkillStatus.verified)

/-- C10: `verifySkill` never looks at the `disabled` status: a disabled
skill without a URL is immediately marked `verified`, and one with a URL
has its verification chain started (status `verifying`); only the
`unverified` scan of `verifyAllSkills` and `areAllSkillsVerified` exclude
disabled skills. -/
theorem verifySkill_ignores_disabled :
    (∀ vs skillId now sk, lookupKV vs.skills skillId = some sk →
        sk.status = .disabled → lookupKV vs.inflight skillId = none →
        sk.verificationUrl = none →
        verifySkillEntry vs skillId now =
          (.immediate { success := true, skill := { sk with status := .verified, error := none }, error := none },
            { vs with skills := setKV vs.skills skillId { sk with status := .verified, error := none } })) ∧
    (∀ vs skillId now sk url, lookupKV vs.skills skillId = some sk →
        sk.status = .disabled → lookupKV vs.inflight skillId = none →
        sk.verificationUrl = some url →
        (verifySkillEntry vs skillId now).1 = .started vs.nextProm ∧
        (lookupKV (verifySkillEntry vs skillId now).2.skills skillId).map
          Skill.status = some .verifying) ∧
    (∀ vs sk, sk ∈ unverifiedScan vs → sk.status = .unverified) ∧
    (∀ vs, areAllSkillsVerified vs = true ↔
        ∀ sk ∈ getAllSkills vs, sk.status ≠ .disabled → sk.status = .verified) := by
  refine ⟨?_, ?_, ?_, ?_⟩
  · intro vs skillId now sk hsk hdis hinfl hurl
    simp [verifySkillEntry, updateSkillStatus, hsk, hinfl, hurl, lookupKV_setKV]
  · intro vs skillId now sk url hsk hdis hinfl hurl
    have hstep : verifySkillEntry vs skillId now =
        (.started vs.nextProm,
          { skills := setKV vs.skills skillId
              { sk with status := .verifying, error := none }
            inflight := setKV vs.inflight skillId vs.nextProm
            nextProm := vs.nextProm + 1 }) := by
      simp only [verifySkillEntry, updateSkillStatus, hsk, hinfl, hurl]
    constructor
    · rw [hstep]
    · rw [hstep]
      simp [lookupKV_setKV]
  · intro vs sk h
    have hmem := List.mem_filter.mp h
    simpa using hmem.2
  · intro vs
    simp [areAllSkillsVerified, getAllSkills, List.all_eq_true,
      List.mem_filter]
    constructor
    · intro h sk x hmem hnd
      rcases h sk x hmem with hd | hv
      · exact absurd hd hnd
      · exact hv
    · intro h sk x hmem
      by_cases hd : sk.status = SkillStatus.disabled
      · exact Or.inl hd
      · exact Or.inr (h sk x hmem hd)

def skC10 : Skill :=
  { id := "d"
    name := "d"
    displayName := "D"
    status := .disabled
    verificationUrl := none
    lastVerified := none
    error := none
    retryCount := 0 }

def vsC10 : VerifierState :=
  { skills := [("d", skC10)], inflight := [], nextProm := 0 }

theorem verifySkill_ignores_disabled_witness :
    (verifySkillEntry vsC10 "d" 0).1 =
      .immediate { success := true, skill := { skC10 with status := .verified, error := none }, error := none } := by
  have h := verifySkill_ignores_disabled.1 vsC10 "d" 0 skC10 rfl rfl rfl rfl
  exact congrArg Prod.fst h

/-! ## `verifyAllSkills`: scan, overall deadline, timeout branch -/

/-- The overall race deadline in `verifyAllSkills`: `timeout * 2`. -/
def overallDeadline (timeout : Int) : Int := timeout * 2

def verificationTimeoutError (now : Int) : SkillError :=
  { code := "VERIFICATION_TIMEOUT"
    message := "Skill verification timed out"
    isNetworkError := false
    timestamp := now }

/-- A skill as left by the force-fail of the timeout branch. -/
def forceFailed (now : Int) (sk : Skill) : Skill :=
  { sk with status := .failed, error := some (verificationTimeoutError now) }

/-- One iteration of the `skills.map(...)` in the timeout branch of
`verifyAllSkills`: a scanned skill still `verifying` is force-failed with
`VERIFICATION_TIMEOUT`; any other is reported as it stands. -/
def timeoutResolveStep (now : Int)
    (acc : List SkillVerificationResult × VerifierState) (skillId : String) :
    List SkillVerificationResult × VerifierState :=
  match lookupKV acc.2.skills skillId with
  | none => acc
  | some sk =>
      if sk.status = .verifying then
        let vs' := updateSkillStatus acc.2 skillId .failed
          (some (verificationTimeoutError now))
        let res : SkillVerificationResult :=
          { success := false
            skill := (lookupKV vs'.skills skillId).getD sk
            error := some (verificationTimeoutError now) }
        (acc.1 ++ [res], vs')
      else
        let res : SkillVerificationResult :=
          { success := sk.status == .verified
            skill := sk
            error := none }
        (acc.1 ++ [res], acc.2)

/-- The whole timeout branch over the scanned skill ids. -/
def resolveTimeoutBranch (vs : VerifierState) (scanIds : List String)
    (now : Int) : List SkillVerificationResult × VerifierState :=
  scanIds.foldl (timeoutResolveStep now) ([], vs)

theorem timeoutResolveStep_skills_none (now : Int)
    (acc : List SkillVerificationResult × VerifierState) (hd : String)
    (hl : lookupKV acc.2.skills hd = none) :
    (timeoutResolveStep now acc hd).2.skills = acc.2.skills := by
  unfold timeoutResolveStep
  simp only [hl]

theorem timeoutResolveStep_skills_some (now : Int)
    (acc : List SkillVerificationResult × VerifierState) (hd : String)
    (sk : Skill) (hl : lookupKV acc.2.skills hd = some sk) :
    (timeoutResolveStep now acc hd).2.skills =
      (if sk.status = .verifying then
        setKV acc.2.skills hd (forceFailed now sk)
      else acc.2.skills) := by
  unfold timeoutResolveStep
  simp only [hl]
  by_cases hv : sk.status = .verifying
  · simp [hv, updateSkillStatus, hl, forceFailed]
  · simp [hv]

theorem timeoutResolveStep_lookup_preserved (now : Int)
    (acc : List SkillVerificationResult × VerifierState) (hd sid : String)
    (h : ∀ sk, lookupKV acc.2.skills sid = some sk →
        sk.status ≠ .verifying ∨ ¬ hd = sid) :
    lookupKV (timeoutResolveStep now acc hd).2.skills sid =
      lookupKV acc.2.skills sid := by
  cases hl : lookupKV acc.2.skills hd with
  | none => rw [timeoutResolveStep_skills_none now acc hd hl]
  | some sk =>
      rw [timeoutResolveStep_skills_some now acc hd sk hl]
      by_cases hv : sk.status = .verifying
      · rw [if_pos hv, lookupKV_setKV]
        by_cases hhd : hd = sid
        · subst hhd
          rcases h sk hl with hnv | hne
          · exact absurd hv hnv
          · exact absurd rfl hne
        · rw [if_neg hhd]
      · rw [if_neg hv]

theorem timeoutResolve_preserves_settled (now : Int) (ids : List String) :
    ∀ (acc : List SkillVerificationResult × VerifierState) (sid : String)
      (sk : Skill), lookupKV acc.2.skills sid = some sk →
      sk.status ≠ .verifying →
      lookupKV (ids.foldl (timeoutResolveStep now) acc).2.skills sid =
        some sk := by
  induction ids with
  | nil => intro acc sid sk hsk _; exact hsk
  | cons hd tl ih =>
      intro acc sid sk hsk hnv
      simp only [List.foldl_cons]
      refine ih (timeoutResolveStep now acc hd) sid sk ?_ hnv
      rw [timeoutResolveStep_lookup_preserved now acc hd sid ?_]
      · exact hsk
      · intro sk0 hsk0
        rw [hsk] at hsk0
        cases hsk0
        exact Or.inl hnv

theorem timeoutResolve_preserves_absent (now : Int) (ids : List String) :
    ∀ (acc : List SkillVerificationResult × VerifierState) (sid : String),
      lookupKV acc.2.skills sid = none →
      lookupKV (ids.foldl (timeoutResolveStep now) acc).2.skills sid =
        none := by
  induction ids with
  | nil => intro acc sid hsk; exact hsk
  | cons hd tl ih =>
      intro acc sid hsk
      simp only [List.foldl_cons]
      refine ih (timeoutResolveStep now acc hd) sid ?_
      rw [timeoutResolveStep_lookup_preserved now acc hd sid ?_]
      · exact hsk
      · intro sk0 hsk0
        rw [hsk] at hsk0
        exact Option.noConfusion hsk0

theorem timeoutResolveStep_force (now : Int)
    (acc : List SkillVerificationResult × VerifierState) (sid : String)
    (sk : Skill) (hsk : lookupKV acc.2.skills sid = some sk)
    (hv : sk.status = .verifying) :
    lookupKV (timeoutResolveStep now acc sid).2.skills sid =
      some (forceFailed now sk) := by
  rw [timeoutResolveStep_skills_some now acc sid sk hsk]
  rw [if_pos hv]
  rw [lookupKV_setKV, if_pos rfl]

theorem timeoutResolve_terminal (now : Int) (ids : List String) :
    ∀ (acc : List SkillVerificationResult × VerifierState) (sid : String),
      sid ∈ ids →
      (∀ sk, lookupKV acc.2.skills sid = some sk →
          sk.status = .verifying ∨ sk.status = .verified ∨
          sk.status = .failed) →
      ∀ sk', lookupKV (ids.foldl (timeoutResolveStep now) acc).2.skills sid =
          some sk' →
        sk'.status = .verified ∨ sk'.status = .failed := by
  induction ids with
  | nil => intro acc sid h; simp at h
  | cons hd tl ih =>
      intro acc sid hmem hstat sk' hsk'
      simp only [List.foldl_cons] at hsk'
      by_cases hin : sid ∈ tl
      · refine ih (timeoutResolveStep now acc hd) sid hin ?_ sk' hsk'
        intro sk hlk
        cases hl : lookupKV acc.2.skills hd with
        | none =>
            rw [timeoutResolveStep_skills_none now acc hd hl] at hlk
            exact hstat sk hlk
        | some skh =>
            rw [timeoutResolveStep_skills_some now acc hd skh hl] at hlk
            by_cases hvh : skh.status = .verifying
            · rw [if_pos hvh, lookupKV_setKV] at hlk
              by_cases hhd : hd = sid
              · rw [if_pos hhd] at hlk
                cases hlk
                exact Or.inr (Or.inr rfl)
              · rw [if_neg hhd] at hlk
                exact hstat sk hlk
            · rw [if_neg hvh] at hlk
              exact hstat sk hlk
      · have hsid : sid = hd := by
          rcases List.mem_cons.mp hmem with h | h
          · exact h
          · exact absurd h hin
        subst hsid
        cases hl : lookupKV acc.2.skills sid with
        | none =>
            have habs : lookupKV (timeoutResolveStep now acc sid).2.skills sid
                = none := by
              rw [timeoutResolveStep_lookup_preserved now acc sid sid ?_]
              · exact hl
              · intro sk0 hsk0
                rw [hl] at hsk0
                exact Option.noConfusion hsk0
            have hfin := timeoutResolve_preserves_absent now tl
              (timeoutResolveStep now acc sid) sid habs
            rw [hfin] at hsk'
            exact Option.noConfusion hsk'
        | some sk =>
            rcases hstat sk hl with hv | hv | hv
            · have hstep := timeoutResolveStep_force now acc sid sk hl hv
              have hfin := timeoutResolve_preserves_settled now tl
                (timeoutResolveStep now acc sid) sid _ hstep
                (by simp [forceFailed])
              rw [hfin] at hsk'
              cases hsk'
              exact Or.inr rfl
            · have hstep : lookupKV (timeoutResolveStep now acc sid).2.skills
                  sid = some sk := by
                rw [timeoutResolveStep_lookup_preserved now acc sid sid ?_]
                · exact hl
                · intro sk0 hsk0
                  rw [hl] at hsk0
                  cases hsk0
                  exact Or.inl (by simp [hv])
              have hfin := timeoutResolve_preserves_settled now tl
                (timeoutResolveStep now acc sid) sid sk hstep
                (by simp [hv])
              rw [hfin] at hsk'
              cases hsk'
              exact Or.inl hv
            · have hstep : lookupKV (timeoutResolveStep now acc sid).2.skills
                  sid = some sk := by
                rw [timeoutResolveStep_lookup_preserved now acc sid sid ?_]
                · exact hl
                · intro sk0 hsk0
                  rw [hl] at hsk0
                  cases hsk0
                  exact Or.inl (by simp [hv])
              have hfin := timeoutResolve_preserves_settled now tl
                (timeoutResolveStep now acc sid) sid sk hstep
                (by simp [hv])
              rw [hfin] at hsk'
              cases hsk'
              exact Or.inr hv

theorem timeoutResolve_forces (now : Int) (ids : List String) :
    ∀ (acc : List SkillVerificationResult × VerifierState) (sid : String)
      (sk : Skill), sid ∈ ids →
      lookupKV acc.2.skills sid = some sk → sk.status = .verifying →
      lookupKV (ids.foldl (timeoutResolveStep now) acc).2.skills sid =
        some (forceFailed now sk) := by
  induction ids with
  | nil => intro acc sid sk h; simp at h
  | cons hd tl ih =>
      intro acc sid sk hmem hsk hv
      simp only [List.foldl_cons]
      by_cases hhd : hd = sid
      · subst hhd
        have hstep := timeoutResolveStep_force now acc hd sk hsk hv
        exact timeoutResolve_preserves_settled now tl
          (timeoutResolveStep now acc hd) hd _ hstep (by simp [forceFailed])
      · have hin : sid ∈ tl := by
          rcases List.mem_cons.mp hmem with h | h
          · exact absurd h.symm hhd
          · exact h
        refine ih (timeoutResolveStep now acc hd) sid sk hin ?_ hv
        rw [timeoutResolveStep_lookup_preserved now acc hd sid
          (fun _ _ => Or.inr hhd)]
        exact hsk

/-- C7: `verifyAllSkills` scans exactly the skills with status
`unverified`; the race deadline is `2 × timeout`; launching verification
on a scanned skill leaves it `verified` or `verifying`; and when the
deadline branch runs, every scanned skill whose record is `verifying`,
`verified` or `failed` ends in a terminal status — a still-`verifying` one
being force-failed with `VERIFICATION_TIMEOUT`. -/
theorem verifyAllSkills_deadline_spec :
    (∀ vs sk, sk ∈ unverifiedScan vs ↔
        (sk ∈ getAllSkills vs ∧ sk.status = .unverified)) ∧
    (∀ timeout, overallDeadline timeout = 2 * timeout) ∧
    (∀ vs skillId now sk, lookupKV vs.skills skillId = some sk →
        sk.status = .unverified → lookupKV vs.inflight skillId = none →
        (lookupKV (verifySkillEntry vs skillId now).2.skills skillId).map
          Skill.status = some .verified ∨
        (lookupKV (verifySkillEntry vs skillId now).2.skills skillId).map
          Skill.status = some .verifying) ∧
    (∀ now ids vs sid, sid ∈ ids →
        (∀ sk, lookupKV vs.skills sid = some sk →
            sk.status = .verifying ∨ sk.status = .verified ∨
            sk.status = .failed) →
        ∀ sk', lookupKV (resolveTimeoutBranch vs ids now).2.skills sid =
            some sk' →
          sk'.status = .verified ∨ sk'.status = .failed) ∧
    (∀ now ids vs sid sk, sid ∈ ids →
        lookupKV vs.skills sid = some sk → sk.status = .verifying →
        lookupKV (resolveTimeoutBranch vs ids now).2.skills sid =
          some (forceFailed now sk)) := by
  refine ⟨?_, ?_, ?_, ?_, ?_⟩
  · intro vs sk
    simp [unverifiedScan, List.mem_filter]
  · intro timeout
    unfold overallDeadline
    ring
  · intro vs skillId now sk hsk hunv hinfl
    cases hurl : sk.verificationUrl with
    | none =>
        left
        simp [verifySkillEntry, updateSkillStatus, hsk, hinfl, hurl,
          lookupKV_setKV]
    | some url =>
        right
        simp [verifySkillEntry, updateSkillStatus, hsk, hinfl, hurl,
          lookupKV_setKV]
  · intro now ids vs sid hmem hstat sk' hsk'
    exact timeoutResolve_terminal now ids ([], vs) sid hmem hstat sk' hsk'
  · intro now ids vs sid sk hmem hsk hv
    exact timeoutResolve_forces now ids ([], vs) sid sk hmem hsk hv

def skC7 : Skill :=
  { id := "a"
    name := "a"
    displayName := "A"
    status := .verifying
    verificationUrl := some "https://v.example/a"
    lastVerified := none
    error := none
    retryCount := 0 }

def vsC7 : VerifierState :=
  { skills := [("a", skC7)], inflight := [], nextProm := 1 }

theorem verifyAllSkills_deadline_spec_witness :
    lookupKV (resolveTimeoutBranch vsC7 ["a"] 10).2.skills "a" =
      some (forceFailed 10 skC7) :=
  verifyAllSkills_deadline_spec.2.2.2.2 10 ["a"] vsC7 "a" skC7
    (by simp) rfl rfl

/-! ## `performVerification`: timed retry loop with cancellation token -/

inductive FetchOut where
  | ok
  | notOk (status : Int)
  | failMsg (msg : String)
deriving Repr, DecidableEq

/-- Environment of one verification chain: when the session's abort signal
fires (absolute time, `none` when no session is bound or it never fires),
and the duration / outcome of each network call the chain would make. -/
structure VerifyEnv where
  fire : Option Int
  fetchDur : Nat → Int
  fetchRes : Nat → FetchOut

/-- `abortController.signal.aborted` read at time `t`. -/
def firedAt (env : VerifyEnv) (t : Int) : Bool :=
  match env.fire with
  | some f => decide (f ≤ t)
  | none => false

inductive VerifyOutcome where
  | cancelled
  | succeeded
  | failedOut (e : Option SkillError)
deriving Repr, DecidableEq

structure RunOut where
  result : VerifyOutcome
  fetches : Nat
  sleeps : List (Int × Int)
  endTime : Int
deriving Repr, DecidableEq

/-- The message of the `Error` a fetch outcome throws (a non-OK response
throws `Verification failed with status N` into the same catch). -/
def fetchThrownMsg : FetchOut → Option String
  | .ok => none
  | .notOk status => some ("Verification failed with status " ++ toString status)
  | .failMsg m => some m

def errOfMsg (m : String) : ErrVal := .mkError "Error" m none

/-- The `lastError` object built in the catch. -/
def skillErrorOfMsg (m : String) (t : Int) : SkillError :=
  { code := if isNetworkError (errOfMsg m) then "NETWORK_ERROR"
      else "VERIFICATION_ERROR"
    message := m
    isNetworkError := isNetworkError (errOfMsg m)
    timestamp := t }

/-- The `while (attempt <= MAX_RETRIES)` loop of `performVerification`,
fuel-bounded (the loop re-enters only after `attempt++`, so
`MAX_RETRIES + 1` fuel suffices).  Per source: the abort signal is polled
only at the top of each iteration; the fetch itself is bounded by the
per-call timeout `T` (its own `AbortController`, which also lands in the
cancellation branch); the backoff sleep is a plain `setTimeout` that always
lasts the full `calculateRetryDelay(attempt)` — it is recorded in `sleeps`
as (start, duration). -/
def runVerifLoop (env : VerifyEnv) (T : Int) :
    Nat → Int → Nat → Nat → List (Int × Int) → Option SkillError → RunOut
  | 0, t, _, k, sleeps, lastErr =>
      { result := .failedOut lastErr
        fetches := k
        sleeps := sleeps
        endTime := t }
  | fuel + 1, t, attempt, k, sleeps, _lastErr =>
      if firedAt env t then
        { result := .cancelled
          fetches := k
          sleeps := sleeps
          endTime := t }
      else if env.fetchDur k < T then
        match fetchThrownMsg (env.fetchRes k) with
        | none =>
            { result := .succeeded
              fetches := k + 1
              sleeps := sleeps
              endTime := t + env.fetchDur k }
        | some m =>
            if isRecoverableError (errOfMsg m) && decide (attempt < MAX_RETRIES) then
              runVerifLoop env T fuel
                (t + env.fetchDur k + calculateRetryDelay (attempt + 1))
                (attempt + 1) (k + 1)
                (sleeps ++ [(t + env.fetchDur k, calculateRetryDelay (attempt + 1))])
                (some (skillErrorOfMsg m (t + env.fetchDur k)))
            else
              { result := .failedOut (some (skillErrorOfMsg m (t + env.fetchDur k)))
                fetches := k + 1
                sleeps := sleeps
                endTime := t + env.fetchDur k }
      else
        { result := .cancelled
          fetches := k + 1
          sleeps := sleeps
          endTime := t + T }

def runVerif (env : VerifyEnv) (T : Int) : RunOut :=
  runVerifLoop env T (MAX_RETRIES + 1) 0 0 0 [] none

def envC6 : VerifyEnv :=
  { fire := some 1500
    fetchDur := fun _ => 100
    fetchRes := fun _ => .failMsg "fetch failed" }

/-- Counterexample to C6: the token fires at t = 1500, in the middle of
the backoff sleep that runs from t = 100 to t = 2100.  The sleep is not
cancelled — it is recorded with its full 2000ms duration and the loop only
resumes at t = 2100 — although no second network attempt is issued
(`fetches = 1`). -/
theorem backoff_sleep_not_cancelled :
    runVerif envC6 5000 =
      { result := .cancelled
        fetches := 1
        sleeps := [(100, 2000)]
        endTime := 2100 } ∧
    (100 : Int) < 1500 ∧ (1500 : Int) < 2100 := by
  refine ⟨?_, by decide, by decide⟩
  rfl

theorem runVerifLoop_sleeps (env : VerifyEnv) (T : Int) :
    ∀ (fuel : Nat) (t : Int) (attempt k : Nat) (sleeps : List (Int × Int))
      (lastErr : Option SkillError),
      (∀ pr, pr ∈ sleeps →
          ∃ a, 1 ≤ a ∧ a ≤ MAX_RETRIES ∧ pr.2 = calculateRetryDelay a) →
      ∀ pr, pr ∈ (runVerifLoop env T fuel t attempt k sleeps lastErr).sleeps →
        ∃ a, 1 ≤ a ∧ a ≤ MAX_RETRIES ∧ pr.2 = calculateRetryDelay a := by
  intro fuel
  induction fuel with
  | zero => intro t attempt k sleeps _ hs pr hpr; exact hs pr hpr
  | succ fuel ih =>
      intro t attempt k sleeps lastErr hs pr hpr
      simp only [runVerifLoop] at hpr
      by_cases hf : firedAt env t = true
      · rw [if_pos hf] at hpr
        exact hs pr hpr
      · rw [if_neg hf] at hpr
        by_cases hd : env.fetchDur k < T
        · rw [if_pos hd] at hpr
          cases hm : fetchThrownMsg (env.fetchRes k) with
          | none =>
              simp only [hm] at hpr
              exact hs pr hpr
          | some m =>
              simp only [hm] at hpr
              by_cases hr : (isRecoverableError (errOfMsg m) &&
                  decide (attempt < MAX_RETRIES)) = true
              · rw [if_pos hr] at hpr
                refine ih _ _ _ _ _ ?_ pr hpr
                intro pr' hpr'
                rcases List.mem_append.mp hpr' with hold | hnew
                · exact hs pr' hold
                · have hlt : attempt < MAX_RETRIES := by
                    have hr2 := hr
                    simp only [Bool.and_eq_true, decide_eq_true_eq] at hr2
                    exact hr2.2
                  have hpr2 : pr' = (t + env.fetchDur k,
                      calculateRetryDelay (attempt + 1)) := by
                    simpa using hnew
                  subst hpr2
                  exact ⟨attempt + 1, Nat.succ_le_succ (Nat.zero_le _),
                    hlt, rfl⟩
              · rw [if_neg hr] at hpr
                exact hs pr hpr
        · rw [if_neg hd] at hpr
          exact hs pr hpr

/-- C6 amended: the backoff sleep does not observe the cancellation token
— every recorded sleep lasts the full `calculateRetryDelay(attempt)` for
some attempt 1..MAX_RETRIES, independent of when the token fires — but the
token is re-read at the top of each loop iteration, so once it has fired
(e.g. during the preceding sleep) the loop issues no further network call
and returns the cancellation outcome at once. -/
theorem backoff_token_checked_at_loop_top :
    (∀ env T fuel t attempt k sleeps lastErr, firedAt env t = true →
        runVerifLoop env T (fuel + 1) t attempt k sleeps lastErr =
          { result := .cancelled
            fetches := k
            sleeps := sleeps
            endTime := t }) ∧
    (∀ env T pr, pr ∈ (runVerif env T).sleeps →
        ∃ a, 1 ≤ a ∧ a ≤ MAX_RETRIES ∧ pr.2 = calculateRetryDelay a) := by
  constructor
  · intro env T fuel t attempt k sleeps lastErr h
    simp only [runVerifLoop]
    rw [if_pos h]
  · intro env T pr hpr
    exact runVerifLoop_sleeps env T (MAX_RETRIES + 1) 0 0 0 [] none
      (by intro pr' h; simp at h) pr hpr

theorem backoff_token_checked_at_loop_top_witness :
    runVerifLoop envC6 5000 4 2100 1 1 [(100, 2000)] none =
      { result := .cancelled
        fetches := 1
        sleeps := [(100, 2000)]
        endTime := 2100 } :=
  backoff_token_checked_at_loop_top.1 envC6 5000 3 2100 1 1 [(100, 2000)]
    none (by decide)

/-! ## C8: `isRecoverableError` -/

def errC8 : ErrVal := .mkError "Error" "rate limit exceeded" (some 404)

/-- Counterexample to C8: an `Error` whose message carries the rate-limit
signal but which also carries `statusCode = 404` is classified
non-recoverable — the `statusCode` branch returns before the rate-limit
check — so the claimed iff (network ∨ 5xx ∨ rate-limit) fails. -/
theorem isRecoverable_statusCode_shadows_rate_limit :
    isNetworkError errC8 = false ∧
    strIncludes "rate limit exceeded" "rate limit" = true ∧
    isRecoverableError errC8 = false :=
  ⟨rfl, rfl, rfl⟩

/-- C8 amended: `isRecoverableError` is true for every network error; for
a non-network `Error` carrying a `statusCode` it returns exactly the 5xx
test (the message, rate-limit or not, is ignored); for a non-network
`Error` without `statusCode` it returns exactly the rate-limit message
test; and it is false on non-`Error` values.  In particular a 4xx error
whose message is not a connectivity marker is non-recoverable. -/
theorem isRecoverableError_spec (e : ErrVal) :
    (isNetworkError e = true → isRecoverableError e = true) ∧
    (∀ nm msg sc, e = .mkError nm msg (some sc) → isNetworkError e = false →
        isRecoverableError e = (decide (sc ≥ 500) && decide (sc < 600))) ∧
    (∀ nm msg, e = .mkError nm msg none → isNetworkError e = false →
        isRecoverableError e = strIncludes msg "rate limit") ∧
    (e = .nonError → isRecoverableError e = false) := by
  refine ⟨?_, ?_, ?_, ?_⟩
  · intro h
    simp [isRecoverableError, h]
  · intro nm msg sc he hn
    subst he
    simp [isRecoverableError, hn]
  · intro nm msg he hn
    subst he
    simp [isRecoverableError, hn]
  · intro he
    subst he
    rfl

theorem isRecoverableError_spec_witness :
    isRecoverableError (.mkError "Error" "Not found" (some 404)) = false := by
  have h := (isRecoverableError_spec
    (.mkError "Error" "Not found" (some 404))).2.1 "Error" "Not found" 404
    rfl rfl
  rw [h]
  decide
